import Mathlib

/-!
Verification of the synthetic OHLCV price-data generator
(`scripts/enhance-price-data.py`) against its specification.

The Python program is shallowly embedded over `ℚ`.  All random draws the
program makes (`np.random.normal`, `random.random`, `random.choice`,
`random.uniform`, `random.randint`, `np.random.shuffle`) are supplied by an
explicit `Oracle`: each call site reads from its own stream.  A normal draw
is represented by its standard-normal sample `z` (unconstrained, since the
support of a normal distribution is all of ℝ) with the affine transform
`mean + std * z` applied where the program applies it; a bounded draw
(`random.uniform(a, b)`, `random.randint(a, b)`) carries its support as a
proposition; `np.random.shuffle` is an arbitrary permutation.
-/

/-- Source of all randomness consumed by the generator, one field per call
site of the Python code, with the support of each distribution recorded. -/
structure Oracle where
  /-- Standard-normal draws backing every `np.random.normal` call of
  `generate_market_scenario` (consumed left to right). -/
  noise : ℕ → ℚ
  /-- `np.random.shuffle` on the concatenated mixed-scenario returns. -/
  shuffle : List ℚ → List ℚ
  shuffle_perm : ∀ l : List ℚ, List.Perm (shuffle l) l
  /-- `random.choice` over the three-element scenario lists. -/
  scenIdx : Fin 3
  /-- `random.random()` drawn per day for the special-event test. -/
  eventRand : ℕ → ℚ
  /-- `random.choice([-0.08, -0.05, 0.05, 0.08])` per event day. -/
  eventIdx : ℕ → Fin 4
  /-- `random.uniform(0.99, 1.01)` for the first day's open. -/
  openU : ℚ
  openU_mem : 99/100 ≤ openU ∧ openU ≤ 101/100
  /-- `random.uniform(0.995, 1.005)` gap factor, per day. -/
  gap : ℕ → ℚ
  gap_mem : ∀ i, 199/200 ≤ gap i ∧ gap i ≤ 201/200
  /-- Standard-normal draw for the intraday high factor, per day. -/
  hiZ : ℕ → ℚ
  /-- Standard-normal draw for the intraday low factor, per day. -/
  loZ : ℕ → ℚ
  /-- `random.randint(100000, 500000)` base volume, per day. -/
  baseVol : ℕ → ℕ
  baseVol_mem : ∀ i, 100000 ≤ baseVol i ∧ baseVol i ≤ 500000

/-- One row of the `price_candle` table as the script builds it. -/
structure Candle where
  ticker : String
  date : ℕ
  open_price : ℚ
  high_price : ℚ
  low_price : ℚ
  close_price : ℚ
  volume : ℤ
  timeframe : String
deriving DecidableEq, Repr

/-- Placeholder candle used as the default of `List.getD`. -/
def cdflt : Candle :=
  { ticker := "", date := 0, open_price := 0, high_price := 0,
    low_price := 0, close_price := 0, volume := 0, timeframe := "" }

/-! ### Dates

Dates are proleptic-Gregorian day numbers (days since 0000-03-01), so that
day-of-week is a residue mod 7.  `daysFromCivil` converts a civil date; with
this epoch, Monday is residue 5, Saturday 3 and Sunday 4. -/

/-- Day number of the civil date `y-m-d` (valid for `y ≥ 1`), counting days
from 0000-03-01 in the proleptic Gregorian calendar. -/
def daysFromCivil (y m d : ℕ) : ℕ :=
  let y' := if m ≤ 2 then y - 1 else y
  let era := y' / 400
  let yoe := y' % 400
  let mp := if 2 < m then m - 3 else m + 9
  let doy := (153 * mp + 2) / 5 + d - 1
  let doe := yoe * 365 + yoe / 4 - yoe / 100 + doy
  era * 146097 + doe

/-- Monday–Friday test on a day number (epoch 0000-03-01 is a Wednesday, so
Saturday ≡ 3 and Sunday ≡ 4 mod 7). -/
def isBusinessDay (d : ℕ) : Bool :=
  d % 7 != 3 && d % 7 != 4

/-- `pd.bdate_range(start, end)`: the business days (Mon–Fri, no holiday
calendar) of the inclusive range, ascending. -/
def bdateRange (s e : ℕ) : List ℕ :=
  ((List.range (e + 1 - s)).map (fun i => s + i)).filter isBusinessDay

/-! ### Rounding and integer conversion -/

/-- Round-half-to-even to an integer, the behaviour of Python's `round`. -/
def rhe (y : ℚ) : ℤ :=
  if y - ⌊y⌋ < 1/2 then ⌊y⌋
  else if 1/2 < y - ⌊y⌋ then ⌊y⌋ + 1
  else if ⌊y⌋ % 2 = 0 then ⌊y⌋ else ⌊y⌋ + 1

/-- Python's `round(x, 2)`: round to two decimal places, ties to even. -/
def round2 (x : ℚ) : ℚ := (rhe (x * 100) : ℚ) / 100

/-- Python's `int()` applied to a float value: truncation toward zero. -/
def pyInt (x : ℚ) : ℤ := if 0 ≤ x then ⌊x⌋ else -⌊-x⌋

/-! ### Return-sequence construction (`generate_market_scenario`) -/

/-- `np.linspace(a, b, n)` (with `endpoint=True`, the default). -/
def linspace (a b : ℚ) (n : ℕ) : List ℚ :=
  if n = 1 then [a]
  else (List.range n).map (fun (i : ℕ) => a + (b - a) * (i : ℚ) / ((n : ℚ) - 1))

/-- The per-day bull drift contributions `trend / days` with
`trend = np.linspace(0, 0.8, days)`. -/
def bullDrift (days : ℕ) : List ℚ :=
  (linspace 0 (4/5) days).map (fun t => t / (days : ℚ))

/-- The per-day bear drift contributions `trend / days` with
`trend = np.linspace(0, -0.4, days)`. -/
def bearDrift (days : ℕ) : List ℚ :=
  (linspace 0 (-2/5) days).map (fun t => t / (days : ℚ))

/-- `generate_market_scenario(days, scenario_type)`: the unscaled daily
return sequence of the requested market regime. -/
def generate_market_scenario (o : Oracle) (days : ℕ) (scenario_type : String) : List ℚ :=
  if scenario_type = "bull" then
    (List.range days).map (fun i => (1/1000 + (2/100) * o.noise i) + (bullDrift days).getD i 0)
  else if scenario_type = "bear" then
    (List.range days).map (fun i => (-1/1000 + (25/1000) * o.noise i) + (bearDrift days).getD i 0)
  else if scenario_type = "sideways" then
    (List.range days).map (fun i => (15/1000) * o.noise i)
  else
    let bull_period := days / 3
    let bear_period := days / 4
    let sideways_period := days - bull_period - bear_period
    let bull_returns := (List.range bull_period).map (fun i => 2/1000 + (2/100) * o.noise i)
    let bear_returns :=
      (List.range bear_period).map (fun i => -3/1000 + (3/100) * o.noise (bull_period + i))
    let sideways_returns :=
      (List.range sideways_period).map
        (fun i => (15/1000) * o.noise (bull_period + bear_period + i))
    o.shuffle (bull_returns ++ bear_returns ++ sideways_returns)

/-- The horizon-dependent scenario policy of
`generate_realistic_price_series` (`random.choice` modelled by the oracle's
index into the literal three-element list). -/
def selectScenario (days : ℕ) (j : Fin 3) : String :=
  if 500 < days then "mixed"
  else if 250 < days then ["bull", "bear", "mixed"].get j
  else ["bull", "bear", "sideways"].get j

/-- The special-event magnitudes `[-0.08, -0.05, 0.05, 0.08]`. -/
def eventMagnitudes : List ℚ := [-8/100, -5/100, 5/100, 8/100]

/-- The special-event loop: with the day's `random.random()` draw below
0.05, add a randomly chosen magnitude to that day's return. -/
def applyEvents (o : Oracle) : ℕ → List ℚ → List ℚ
  | _, [] => []
  | i, r :: rs =>
      (if o.eventRand i < 1/20 then r + eventMagnitudes.get (o.eventIdx i) else r) ::
        applyEvents o (i + 1) rs

/-- The fully adjusted daily returns: scenario returns, scaled by the
ticker's volatility, then the special-event loop. -/
def dailyReturns (o : Oracle) (days : ℕ) (volatility : ℚ) : List ℚ :=
  applyEvents o 0
    ((generate_market_scenario o days (selectScenario days o.scenIdx)).map
      (fun r => r * volatility))

/-! ### Price path (`prices` loop) -/

/-- The compounding loop `new = prev * (1 + r)` clamped below at
`base * 0.1`; the seed `base` itself is not emitted. -/
def buildPrices (base : ℚ) : ℚ → List ℚ → List ℚ
  | _, [] => []
  | prev, r :: rs =>
      let p := max (prev * (1 + r)) (base * (1/10))
      p :: buildPrices base p rs

/-- The close-price series of the generator (`prices` after dropping the
seed). -/
def pricesOf (base : ℚ) (returns : List ℚ) : List ℚ :=
  buildPrices base base returns

/-! ### OHLCV row synthesis -/

/-- The day's open: day 0 gaps off its own close with `uniform(0.99, 1.01)`;
later days gap off the previous close with `uniform(0.995, 1.005)`. -/
def rawOpen (o : Oracle) (prices : List ℚ) (close_price : ℚ) (i : ℕ) : ℚ :=
  if i = 0 then close_price * o.openU
  else prices.getD (i - 1) 0 * o.gap i

/-- One `price_candle` row for day `i`, exactly as the loop body of
`generate_realistic_price_series` assembles it. -/
def mkRow (o : Oracle) (ticker : String) (prices daily_returns : List ℚ)
    (i : ℕ) (date : ℕ) (close_price : ℚ) : Candle :=
  let high_factor : ℚ := 1 + |(2/100 : ℚ) * o.hiZ i|
  let low_factor : ℚ := 1 - |(2/100 : ℚ) * o.loZ i|
  let open_price := rawOpen o prices close_price i
  let high_price := max open_price close_price * high_factor
  let low_price := min open_price close_price * low_factor
  let price_change := |daily_returns.getD i 0|
  let volume_multiplier : ℚ := 1 + price_change * 10
  let volume := pyInt ((o.baseVol i : ℚ) * volume_multiplier)
  { ticker := ticker
    date := date
    open_price := round2 open_price
    high_price := round2 high_price
    low_price := round2 low_price
    close_price := round2 close_price
    volume := volume
    timeframe := "DAILY" }

/-- The `for i, (date, close_price) in enumerate(zip(date_range, prices))`
loop. -/
def buildRows (o : Oracle) (ticker : String) (prices daily_returns : List ℚ) :
    ℕ → List (ℕ × ℚ) → List Candle
  | _, [] => []
  | i, (date, close_price) :: rest =>
      mkRow o ticker prices daily_returns i date close_price ::
        buildRows o ticker prices daily_returns (i + 1) rest

/-- Number of business days of the request, `days = len(date_range)`. -/
def daysOf (start_date end_date : ℕ) : ℕ := (bdateRange start_date end_date).length

/-- The close-price series the generator derives for a request. -/
def pricesFor (o : Oracle) (start_date end_date : ℕ) (base_price volatility : ℚ) : List ℚ :=
  pricesOf base_price (dailyReturns o (daysOf start_date end_date) volatility)

/-- `generate_realistic_price_series`: the full candle list of a request. -/
def generate_realistic_price_series (o : Oracle) (ticker : String)
    (start_date end_date : ℕ) (base_price volatility : ℚ) : List Candle :=
  buildRows o ticker (pricesFor o start_date end_date base_price volatility)
    (dailyReturns o (daysOf start_date end_date) volatility) 0
    ((bdateRange start_date end_date).zip (pricesFor o start_date end_date base_price volatility))

/-! ### Store insertion (`insert_price_data`) -/

/-- What `insert_price_data` logs on its successful-return paths. -/
inductive InsertLog where
  | warning
  | info
  | errorLogged
deriving DecidableEq, Repr

/-- `insert_price_data`, over an abstract row store.  `connectOk` models
whether `connect_db` succeeds (its failure is re-raised, hence `.error`);
`insertOk` models whether the bulk insert succeeds (its failure is caught,
logged and rolled back, leaving the store unchanged). -/
def insert_price_data (connectOk insertOk : Bool) (store data : List Candle) :
    Except String (List Candle × InsertLog) :=
  if data.isEmpty then .ok (store, .warning)
  else if !connectOk then .error "database connection failed"
  else if insertOk then .ok (store ++ data, .info)
  else .ok (store, .errorLogged)

/-- The spec's §4.4 description of the volume formula, for comparison with
the code: the product `base_volume * (1 + 10*|scaled_return|)` rounded to
the nearest integer (Python rounding, ties to even). -/
def volume_spec (base_volume : ℕ) (scaled_return : ℚ) : ℤ :=
  rhe ((base_volume : ℚ) * (1 + |scaled_return| * 10))

/-! ### Concrete oracles for witnesses and counterexamples -/

/-- The degenerate oracle: all normal draws 0, all uniforms at 1, no events,
identity shuffle. -/
def oracle0 : Oracle :=
  { noise := fun _ => 0
    shuffle := id
    shuffle_perm := fun l => List.Perm.refl l
    scenIdx := 0
    eventRand := fun _ => 1
    eventIdx := fun _ => 0
    openU := 1
    openU_mem := by norm_num
    gap := fun _ => 1
    gap_mem := fun i => by norm_num
    hiZ := fun _ => 0
    loZ := fun _ => 0
    baseVol := fun _ => 100000
    baseVol_mem := fun i => by norm_num }

/-- Oracle with an extreme intraday low draw (`|N(0,0.02)|` sample 1, i.e.
standard draw 50), used to exhibit a low price far below the price floor. -/
def oracleLow : Oracle :=
  { oracle0 with loZ := fun _ => 50 }

/-- Oracle whose first noise draw makes day 0's scaled return exactly
`9e-7`, so the volume product lands on a fractional part of 0.9. -/
def oracleVol : Oracle :=
  { oracle0 with noise := fun _ => -1991/40000 }

/-- Oracle with a huge positive first noise draw, pushing the first close
(and hence the first open) far away from the base price. -/
def oracleBig : Oracle :=
  { oracle0 with noise := fun _ => 1000 }

/-- 2024-01-01 (a Monday) as a day number. -/
def jan1 : ℕ := daysFromCivil 2024 1 1

/-- 2024-01-12 (a Friday) as a day number. -/
def jan12 : ℕ := daysFromCivil 2024 1 12

/-- The candle invariant of the spec's §8, on the emitted (rounded)
prices. -/
def ohlcInv (c : Candle) : Prop :=
  c.low_price ≤ min c.open_price c.close_price ∧
    max c.open_price c.close_price ≤ c.high_price ∧
    c.low_price ≤ c.high_price

instance (c : Candle) : Decidable (ohlcInv c) := by
  unfold ohlcInv; infer_instance

/-! ## Helper lemmas: rounding -/

lemma le_rhe (y : ℚ) : ⌊y⌋ ≤ rhe y := by
  unfold rhe; split_ifs <;> omega

lemma rhe_le (y : ℚ) : rhe y ≤ ⌊y⌋ + 1 := by
  unfold rhe; split_ifs <;> omega

lemma rhe_mono {x y : ℚ} (h : x ≤ y) : rhe x ≤ rhe y := by
  rcases lt_or_le ⌊x⌋ ⌊y⌋ with hf | hf
  · exact le_trans (rhe_le x) (le_trans (by omega) (le_rhe y))
  · have hxy : ⌊x⌋ = ⌊y⌋ := le_antisymm (Int.floor_mono h) hf
    have hr : x - (⌊y⌋ : ℚ) ≤ y - (⌊y⌋ : ℚ) := by linarith
    unfold rhe
    rw [hxy]
    split_ifs <;> first
      | omega
      | (exfalso; linarith)

lemma round2_mono {x y : ℚ} (h : x ≤ y) : round2 x ≤ round2 y := by
  unfold round2
  have h100 : x * 100 ≤ y * 100 :=
    mul_le_mul_of_nonneg_right h (by norm_num)
  have := rhe_mono h100
  exact div_le_div_of_nonneg_right (by exact_mod_cast this) (by norm_num)

lemma pyInt_le_of_le {z : ℤ} {x : ℚ} (hz : 0 ≤ z) (h : (z : ℚ) ≤ x) : z ≤ pyInt x := by
  have hx : 0 ≤ x := le_trans (by exact_mod_cast hz) h
  unfold pyInt
  rw [if_pos hx]
  exact Int.le_floor.mpr h

/-! ## Helper lemmas: price path -/

lemma buildPrices_length (base : ℚ) : ∀ (prev : ℚ) (rs : List ℚ),
    (buildPrices base prev rs).length = rs.length := by
  intro prev rs
  induction rs generalizing prev with
  | nil => rfl
  | cons r rs ih => simpa [buildPrices] using ih _

lemma buildPrices_mem_ge (base : ℚ) : ∀ (prev : ℚ) (rs : List ℚ),
    ∀ q ∈ buildPrices base prev rs, base * (1/10) ≤ q := by
  intro prev rs
  induction rs generalizing prev with
  | nil => intro q hq; simp [buildPrices] at hq
  | cons r rs ih =>
      intro q hq
      simp only [buildPrices, List.mem_cons] at hq
      rcases hq with rfl | hq
      · exact le_max_right _ _
      · exact ih _ q hq

lemma pricesOf_length (base : ℚ) (rs : List ℚ) : (pricesOf base rs).length = rs.length :=
  buildPrices_length base base rs

lemma pricesOf_mem_ge (base : ℚ) (rs : List ℚ) :
    ∀ q ∈ pricesOf base rs, base * (1/10) ≤ q :=
  buildPrices_mem_ge base base rs

lemma pricesOf_mem_nonneg {base : ℚ} (hb : 0 ≤ base) (rs : List ℚ) :
    ∀ q ∈ pricesOf base rs, 0 ≤ q := by
  intro q hq
  have := pricesOf_mem_ge base rs q hq
  nlinarith

/-! ## Helper lemmas: list plumbing -/

lemma getD_mem_or_eq {α : Type} : ∀ (l : List α) (i : ℕ) (d : α),
    l.getD i d ∈ l ∨ l.getD i d = d := by
  intro l
  induction l with
  | nil => intro i d; right; simp
  | cons a l ih =>
      intro i d
      cases i with
      | zero => left; simp
      | succ j =>
          rcases ih j d with h | h
          · left; simp only [List.getD_cons_succ]; exact List.mem_cons_of_mem _ h
          · right; simpa using h

lemma getD_nonneg_of_mem_nonneg {l : List ℚ} (h : ∀ q ∈ l, 0 ≤ q) (i : ℕ) :
    0 ≤ l.getD i 0 := by
  rcases getD_mem_or_eq l i 0 with hm | he
  · exact h _ hm
  · rw [he]

/-! ## Helper lemmas: lengths through the generator -/

lemma applyEvents_length (o : Oracle) : ∀ (k : ℕ) (l : List ℚ),
    (applyEvents o k l).length = l.length := by
  intro k l
  induction l generalizing k with
  | nil => rfl
  | cons r rs ih => simpa [applyEvents] using ih _

lemma generate_market_scenario_length (o : Oracle) (days : ℕ) (scenario_type : String) :
    (generate_market_scenario o days scenario_type).length = days := by
  unfold generate_market_scenario
  split_ifs <;> simp only [List.length_map, List.length_range]
  have hperm := o.shuffle_perm
    (((List.range (days / 3)).map (fun i => 2/1000 + (2/100) * o.noise i)) ++
      ((List.range (days / 4)).map (fun i => -3/1000 + (3/100) * o.noise (days / 3 + i))) ++
      ((List.range (days - days / 3 - days / 4)).map
        (fun i => (15/1000) * o.noise (days / 3 + days / 4 + i))))
  rw [hperm.length_eq]
  simp only [List.length_append, List.length_map, List.length_range]
  omega

lemma dailyReturns_length (o : Oracle) (days : ℕ) (volatility : ℚ) :
    (dailyReturns o days volatility).length = days := by
  unfold dailyReturns
  rw [applyEvents_length, List.length_map, generate_market_scenario_length]

lemma pricesFor_length (o : Oracle) (s e : ℕ) (b v : ℚ) :
    (pricesFor o s e b v).length = daysOf s e := by
  unfold pricesFor
  rw [pricesOf_length, dailyReturns_length]

/-! ## Helper lemmas: the row-building loop -/

lemma buildRows_length (o : Oracle) (t : String) (ps dr : List ℚ) :
    ∀ (k : ℕ) (pairs : List (ℕ × ℚ)),
      (buildRows o t ps dr k pairs).length = pairs.length := by
  intro k pairs
  induction pairs generalizing k with
  | nil => rfl
  | cons p rest ih =>
      obtain ⟨d, c⟩ := p
      simpa [buildRows] using ih _

lemma buildRows_map_date (o : Oracle) (t : String) (ps dr : List ℚ) :
    ∀ (k : ℕ) (pairs : List (ℕ × ℚ)),
      (buildRows o t ps dr k pairs).map (fun c => c.date) = pairs.map Prod.fst := by
  intro k pairs
  induction pairs generalizing k with
  | nil => rfl
  | cons p rest ih =>
      obtain ⟨d, c⟩ := p
      simp only [buildRows, List.map_cons, ih]
      rfl

lemma buildRows_mem (o : Oracle) (t : String) (ps dr : List ℚ) :
    ∀ {k : ℕ} {pairs : List (ℕ × ℚ)} {c : Candle}, c ∈ buildRows o t ps dr k pairs →
      ∃ i d cl, (d, cl) ∈ pairs ∧ c = mkRow o t ps dr i d cl := by
  intro k pairs
  induction pairs generalizing k with
  | nil => intro c hc; simp [buildRows] at hc
  | cons p rest ih =>
      obtain ⟨d, cl⟩ := p
      intro c hc
      simp only [buildRows, List.mem_cons] at hc
      rcases hc with rfl | hc
      · exact ⟨k, d, cl, List.mem_cons_self _ _, rfl⟩
      · obtain ⟨i, d', cl', hmem, hc⟩ := ih hc
        exact ⟨i, d', cl', List.mem_cons_of_mem _ hmem, hc⟩

lemma buildRows_getD (o : Oracle) (t : String) (ps dr : List ℚ) :
    ∀ (pairs : List (ℕ × ℚ)) (k i : ℕ), i < pairs.length →
      (buildRows o t ps dr k pairs).getD i cdflt =
        mkRow o t ps dr (k + i) (pairs.getD i (0, 0)).1 (pairs.getD i (0, 0)).2 := by
  intro pairs
  induction pairs with
  | nil => intro k i hi; simp at hi
  | cons p rest ih =>
      obtain ⟨d, cl⟩ := p
      intro k i hi
      cases i with
      | zero => simp [buildRows]
      | succ j =>
          have hj : j < rest.length := by simpa using hi
          have heq : k + (j + 1) = (k + 1) + j := by omega
          simp only [buildRows, List.getD_cons_succ, heq]
          exact ih (k + 1) j hj

/-! ## Helper lemmas: the per-row OHLC invariant -/

lemma rawOpen_nonneg (o : Oracle) {ps : List ℚ} (hps : ∀ q ∈ ps, 0 ≤ q)
    {cl : ℚ} (hcl : 0 ≤ cl) (i : ℕ) : 0 ≤ rawOpen o ps cl i := by
  unfold rawOpen
  split_ifs
  · exact mul_nonneg hcl (le_trans (by norm_num) o.openU_mem.1)
  · exact mul_nonneg (getD_nonneg_of_mem_nonneg hps _)
      (le_trans (by norm_num) (o.gap_mem i).1)

lemma ohlcInv_mkRow (o : Oracle) (t : String) (ps dr : List ℚ)
    (hps : ∀ q ∈ ps, 0 ≤ q) (i d : ℕ) {cl : ℚ} (hcl : 0 ≤ cl) :
    ohlcInv (mkRow o t ps dr i d cl) := by
  have hop : 0 ≤ rawOpen o ps cl i := rawOpen_nonneg o hps hcl i
  set op := rawOpen o ps cl i
  have hmin : 0 ≤ min op cl := le_min hop hcl
  have hmax : 0 ≤ max op cl := le_trans hmin (min_le_max)
  have hlo : min op cl * (1 - |(2/100 : ℚ) * o.loZ i|) ≤ min op cl :=
    mul_le_of_le_one_right hmin (by have := abs_nonneg ((2/100 : ℚ) * o.loZ i); linarith)
  have hhi : max op cl ≤ max op cl * (1 + |(2/100 : ℚ) * o.hiZ i|) :=
    le_mul_of_one_le_right hmax (by have := abs_nonneg ((2/100 : ℚ) * o.hiZ i); linarith)
  refine ⟨?_, ?_, ?_⟩
  · exact le_min
      (round2_mono (le_trans hlo (min_le_left _ _)))
      (round2_mono (le_trans hlo (min_le_right _ _)))
  · exact max_le
      (round2_mono (le_trans (le_max_left _ _) hhi))
      (round2_mono (le_trans (le_max_right _ _) hhi))
  · exact round2_mono (le_trans hlo (le_trans min_le_max hhi))

/-- Every candle of a run with a nonnegative base price satisfies the OHLC
invariant on its emitted (rounded) prices. -/
lemma ohlcInv_generate (o : Oracle) (t : String) (s e : ℕ) {b : ℚ} (v : ℚ)
    (hb : 0 ≤ b) :
    ∀ c ∈ generate_realistic_price_series o t s e b v, ohlcInv c := by
  intro c hc
  unfold generate_realistic_price_series at hc
  obtain ⟨i, d, cl, hmem, rfl⟩ := buildRows_mem o t _ _ hc
  have hcl : cl ∈ pricesFor o s e b v := (List.of_mem_zip hmem).2
  have hps : ∀ q ∈ pricesFor o s e b v, 0 ≤ q := pricesOf_mem_nonneg hb _
  exact ohlcInv_mkRow o t _ _ hps i d (hps cl hcl)

/-- Every candle's emitted close is at least the rounded price floor. -/
lemma close_floor_generate (o : Oracle) (t : String) (s e : ℕ) (b v : ℚ) :
    ∀ c ∈ generate_realistic_price_series o t s e b v,
      round2 (b * (1/10)) ≤ c.close_price := by
  intro c hc
  unfold generate_realistic_price_series at hc
  obtain ⟨i, d, cl, hmem, rfl⟩ := buildRows_mem o t _ _ hc
  have hcl : cl ∈ pricesFor o s e b v := (List.of_mem_zip hmem).2
  exact round2_mono (pricesOf_mem_ge b _ cl hcl)

/-! ## Helper lemmas: lengths and dates of the emitted candle list -/

lemma generate_length (o : Oracle) (t : String) (s e : ℕ) (b v : ℚ) :
    (generate_realistic_price_series o t s e b v).length = daysOf s e := by
  unfold generate_realistic_price_series
  rw [buildRows_length, List.length_zip, pricesFor_length]
  exact min_self _

lemma generate_map_date (o : Oracle) (t : String) (s e : ℕ) (b v : ℚ) :
    (generate_realistic_price_series o t s e b v).map (fun c => c.date) = bdateRange s e := by
  unfold generate_realistic_price_series
  rw [buildRows_map_date]
  exact List.map_fst_zip _ _ (le_of_eq (pricesFor_length o s e b v).symm)

lemma bdateRange_sorted (s e : ℕ) : (bdateRange s e).Sorted (· < ·) := by
  unfold bdateRange
  exact List.Sorted.filter _
    ((List.sorted_lt_range _).map _ (fun a b h => by omega))

/-! ## Helper lemmas: evaluation at concrete inputs -/

lemma getD_mem {α : Type} : ∀ (l : List α) (i : ℕ) (d : α), i < l.length → l.getD i d ∈ l := by
  intro l
  induction l with
  | nil => intro i d h; simp at h
  | cons a l ih =>
      intro i d h
      cases i with
      | zero => simp
      | succ j =>
          have := ih j d (by simpa using h)
          simp only [List.getD_cons_succ]
          exact List.mem_cons_of_mem _ this

lemma getD_zero_map {α β : Type} (f : α → β) {l : List α} (hl : 0 < l.length)
    (d : β) (d₀ : α) : (l.map f).getD 0 d = f (l.getD 0 d₀) := by
  cases l with
  | nil => simp at hl
  | cons a l => rfl

lemma floor_eval {x : ℚ} {z : ℤ} (h1 : (z : ℚ) ≤ x) (h2 : x < z + 1) : ⌊x⌋ = z :=
  Int.floor_eq_iff.mpr ⟨h1, by exact_mod_cast h2⟩

lemma rhe_eval_lo {y : ℚ} {f : ℤ} (hf : ⌊y⌋ = f) (h : y - f < 1/2) : rhe y = f := by
  unfold rhe
  rw [hf, if_pos h]

lemma rhe_eval_hi {y : ℚ} {f : ℤ} (hf : ⌊y⌋ = f) (h : 1/2 < y - f) : rhe y = f + 1 := by
  unfold rhe
  rw [hf, if_neg (by linarith), if_pos h]

lemma pyInt_eval {x : ℚ} {z : ℤ} (h0 : 0 ≤ x) (h1 : (z : ℚ) ≤ x) (h2 : x < z + 1) :
    pyInt x = z := by
  unfold pyInt
  rw [if_pos h0]
  exact floor_eval h1 h2

lemma round2_eval {x : ℚ} {f : ℤ} (hf : ⌊x * 100⌋ = f) (h : x * 100 - f < 1/2) :
    round2 x = (f : ℚ) / 100 := by
  unfold round2
  rw [rhe_eval_lo hf h]

/-- Head of the daily-return list, for a positive horizon whose scenario
resolves to `"bull"` and whose day-0 event test fails. -/
lemma dailyReturns_head (o : Oracle) (days : ℕ) (v : ℚ) (hd : 0 < days)
    (hsc : selectScenario days o.scenIdx = "bull") (hev : ¬ o.eventRand 0 < 1/20) :
    (dailyReturns o days v).getD 0 0 =
      ((1/1000 + (2/100) * o.noise 0) + (bullDrift days).getD 0 0) * v := by
  unfold dailyReturns
  rw [hsc]
  unfold generate_market_scenario
  rw [if_pos rfl]
  obtain ⟨k, rfl⟩ : ∃ k, days = k + 1 := ⟨days - 1, by omega⟩
  rw [List.range_succ_eq_map, List.map_cons, List.map_cons]
  unfold applyEvents
  rw [if_neg hev]
  rfl

lemma pricesFor_head (o : Oracle) (s e : ℕ) (b v : ℚ) (hd : 0 < daysOf s e) :
    (pricesFor o s e b v).getD 0 0 =
      max (b * (1 + (dailyReturns o (daysOf s e) v).getD 0 0)) (b * (1/10)) := by
  unfold pricesFor pricesOf
  have hlen : 0 < (dailyReturns o (daysOf s e) v).length := by
    rw [dailyReturns_length]; exact hd
  rcases hrs : dailyReturns o (daysOf s e) v with _ | ⟨r, rs⟩
  · rw [hrs] at hlen; simp at hlen
  · rfl

lemma zip_getD_zero {l : List ℕ} {l' : List ℚ} (h : 0 < l.length) (h' : 0 < l'.length) :
    (l.zip l').getD 0 (0, 0) = (l.getD 0 0, l'.getD 0 0) := by
  cases l with
  | nil => simp at h
  | cons a l =>
      cases l' with
      | nil => simp at h'
      | cons b l' => rfl

/-- The first emitted candle of a nonempty run, in terms of the loop body. -/
lemma generate_getD_zero (o : Oracle) (t : String) (s e : ℕ) (b v : ℚ)
    (hd : 0 < daysOf s e) :
    (generate_realistic_price_series o t s e b v).getD 0 cdflt =
      mkRow o t (pricesFor o s e b v) (dailyReturns o (daysOf s e) v) 0
        ((bdateRange s e).getD 0 0) ((pricesFor o s e b v).getD 0 0) := by
  unfold generate_realistic_price_series
  have hp : 0 < (pricesFor o s e b v).length := by rw [pricesFor_length]; exact hd
  have hzip : 0 < ((bdateRange s e).zip (pricesFor o s e b v)).length := by
    rw [List.length_zip]
    exact lt_min hd hp
  rw [buildRows_getD _ _ _ _ _ 0 0 hzip, zip_getD_zero hd hp]

/-! ## Helper lemmas: the bull drift total -/

lemma sum_range_map_linear (c : ℚ) : ∀ n : ℕ,
    ((List.range n).map (fun (i : ℕ) => c * (i : ℚ))).sum = c * (n : ℚ) * ((n : ℚ) - 1) / 2 := by
  intro n
  induction n with
  | zero => simp
  | succ m ih =>
      rw [List.range_succ, List.map_append, List.sum_append, ih]
      simp only [List.map_cons, List.map_nil, List.sum_cons, List.sum_nil]
      push_cast
      ring

lemma round2_zero : round2 0 = 0 := by
  unfold round2
  rw [rhe_eval_lo (f := 0) (by norm_num) (by norm_num)]
  norm_num

/-! ## The claims -/

/-- C1: every candle the generator produces (for a nonnegative base price)
satisfies, on its emitted rounded prices, `low_price ≤ min(open_price,
close_price)`, `max(open_price, close_price) ≤ high_price` and
`low_price ≤ high_price`. -/
theorem C1_ohlc_invariant (o : Oracle) (t : String) (s e : ℕ) (b v : ℚ)
    (hb : 0 ≤ b) :
    ∀ c ∈ generate_realistic_price_series o t s e b v, ohlcInv c :=
  ohlcInv_generate o t s e v hb

/-- Witness for C1 at a concrete one-day request. -/
theorem C1_ohlc_invariant_witness :
    ohlcInv ((generate_realistic_price_series oracle0 "T" jan1 jan1 1000 (1/5)).getD 0 cdflt) := by
  apply C1_ohlc_invariant oracle0 "T" jan1 jan1 1000 (1/5) (by norm_num)
  apply getD_mem
  rw [generate_length]
  decide

/-- C2 counterexample: in a concrete one-day run with base price 1000, the
emitted `low_price` is 0, far below the claimed floor `0.1 * 1000 = 100`:
the 10% floor does not apply to every emitted price. -/
theorem C2_counterexample :
    ¬ ((1/10 : ℚ) * 1000 ≤
        ((generate_realistic_price_series oracleLow "T" jan1 jan1 1000 (1/5)).getD 0 cdflt).low_price) := by
  have hd : 0 < daysOf jan1 jan1 := by decide
  rw [generate_getD_zero oracleLow "T" jan1 jan1 1000 (1/5) hd]
  have h50 : oracleLow.loZ 0 = 50 := rfl
  simp only [mkRow, h50]
  have hfac : (1 : ℚ) - |(2/100 : ℚ) * 50| = 0 := by
    rw [abs_of_nonneg (by norm_num)]
    norm_num
  rw [hfac, mul_zero, round2_zero]
  norm_num

/-- C2 amended: the 10% floor holds for the close prices only — every value
of the internal close-price series is at least `0.1 * base_price`, and
consequently every candle's emitted `close_price` is at least the rounded
floor; open, high and low prices are not clamped. -/
theorem C2_close_floor (o : Oracle) (t : String) (s e : ℕ) (b v : ℚ) :
    (∀ p ∈ pricesFor o s e b v, b * (1/10) ≤ p) ∧
      ∀ c ∈ generate_realistic_price_series o t s e b v,
        round2 (b * (1/10)) ≤ c.close_price :=
  ⟨pricesOf_mem_ge b _, close_floor_generate o t s e b v⟩

/-- C8 counterexample: for the 2-day horizon the bull drift contributions
are `[0, 0.4]`, summing to `0.4`, not `0.8`. -/
theorem C8_counterexample : (bullDrift 2).sum ≠ 4/5 := by
  norm_num [bullDrift, linspace, List.range_succ]

/-- C8 amended: for every horizon of at least 2 days, the deterministic
bull-scenario drift contributions `trend[i]/days` (with
`trend = linspace(0, 0.8, days)`) sum to exactly `0.4` — the drift
contributes a total of +40% before volatility scaling, not +80%. -/
theorem C8_bull_drift_total (days : ℕ) (hd : 2 ≤ days) :
    (bullDrift days).sum = 2/5 := by
  have hd2 : (2 : ℚ) ≤ (days : ℚ) := by exact_mod_cast hd
  have hd0 : (days : ℚ) ≠ 0 := by linarith
  have hd1 : (days : ℚ) - 1 ≠ 0 := by linarith
  unfold bullDrift linspace
  rw [if_neg (by omega : ¬ days = 1), List.map_map]
  have hfun : ((fun t => t / (days : ℚ)) ∘
      (fun (i : ℕ) => 0 + ((4 : ℚ)/5 - 0) * (i : ℚ) / ((days : ℚ) - 1))) =
      fun (i : ℕ) => ((4 : ℚ)/5 / (((days : ℚ) - 1) * (days : ℚ))) * (i : ℚ) := by
    funext i
    simp only [Function.comp_apply]
    rw [zero_add, sub_zero, div_div, div_mul_eq_mul_div]
    ring
  rw [hfun, sum_range_map_linear]
  field_simp
  ring

/-- Witness for C8's amended statement at a 5-day horizon. -/
theorem C8_bull_drift_total_witness : (bullDrift 5).sum = 2/5 :=
  C8_bull_drift_total 5 (by norm_num)

/-- C7 counterexample: in a concrete one-day run, the emitted volume is
100000 (the product `100000.9` truncated by `int()`), while the spec's
round-to-nearest formula gives 100001. -/
theorem C7_counterexample :
    ((generate_realistic_price_series oracleVol "T" jan1 jan1 1000 (1/5)).getD 0 cdflt).volume ≠
      volume_spec (oracleVol.baseVol 0)
        ((dailyReturns oracleVol (daysOf jan1 jan1) (1/5)).getD 0 0) := by
  have hd : 0 < daysOf jan1 jan1 := by decide
  have hone : daysOf jan1 jan1 = 1 := by decide
  have hr : (dailyReturns oracleVol (daysOf jan1 jan1) (1/5)).getD 0 0 = 9/10000000 := by
    rw [dailyReturns_head oracleVol (daysOf jan1 jan1) (1/5) hd (by decide)
      (by norm_num [oracleVol, oracle0])]
    have hb : (bullDrift (daysOf jan1 jan1)).getD 0 0 = 0 := by
      rw [hone]
      norm_num [bullDrift, linspace]
    rw [hb]
    norm_num [oracleVol, oracle0]
  have habs : |(9/10000000 : ℚ)| = 9/10000000 := abs_of_pos (by norm_num)
  have hbv : (oracleVol.baseVol 0 : ℚ) = 100000 := by norm_num [oracleVol, oracle0]
  have hvol :
      ((generate_realistic_price_series oracleVol "T" jan1 jan1 1000 (1/5)).getD 0 cdflt).volume =
        100000 := by
    rw [generate_getD_zero oracleVol "T" jan1 jan1 1000 (1/5) hd]
    simp only [mkRow, hr, hbv, habs]
    exact pyInt_eval (by norm_num) (by norm_num) (by norm_num)
  have hspec :
      volume_spec (oracleVol.baseVol 0)
        ((dailyReturns oracleVol (daysOf jan1 jan1) (1/5)).getD 0 0) = 100001 := by
    unfold volume_spec
    rw [hr, habs, hbv]
    rw [rhe_eval_hi (f := 100000) (floor_eval (by norm_num) (by norm_num)) (by norm_num)]
    decide
  rw [hvol, hspec]
  decide

/-- C7 amended: the emitted volume of day `i` is
`int(base_volume * (1 + 10 * |scaled_return[i]|))` — Python's `int()`
truncation of the product (its floor, the product being nonnegative), not
its rounding to the nearest integer. -/
theorem C7_volume_formula (o : Oracle) (t : String) (s e : ℕ) (b v : ℚ) (i : ℕ)
    (hi : i < daysOf s e) :
    ((generate_realistic_price_series o t s e b v).getD i cdflt).volume =
      pyInt ((o.baseVol i : ℚ) *
        (1 + |(dailyReturns o (daysOf s e) v).getD i 0| * 10)) := by
  unfold generate_realistic_price_series
  have hzip : i < ((bdateRange s e).zip (pricesFor o s e b v)).length := by
    rw [List.length_zip, pricesFor_length]
    exact lt_min hi hi
  rw [buildRows_getD _ _ _ _ _ 0 i hzip]
  simp only [Nat.zero_add]
  rfl

/-- Witness for C7's amended statement at a concrete one-day request. -/
theorem C7_volume_formula_witness :
    ((generate_realistic_price_series oracle0 "T" jan1 jan1 1000 (1/5)).getD 0 cdflt).volume =
      pyInt ((oracle0.baseVol 0 : ℚ) *
        (1 + |(dailyReturns oracle0 (daysOf jan1 jan1) (1/5)).getD 0 0| * 10)) :=
  C7_volume_formula oracle0 "T" jan1 jan1 1000 (1/5) 0 (by decide)

/-- C3: a run over any inclusive date range emits exactly one candle per
business day of the range, carrying exactly those dates in ascending order;
and the mixed scenario's three blocks (`days//3`, `days//4`, remainder)
always concatenate to a return series of length `days`. -/
theorem C3_length_and_dates (o : Oracle) (t : String) (s e : ℕ) (b v : ℚ) :
    (generate_realistic_price_series o t s e b v).length = (bdateRange s e).length ∧
      (generate_realistic_price_series o t s e b v).map (fun c => c.date) = bdateRange s e ∧
      (bdateRange s e).Sorted (· < ·) ∧
      ∀ (o' : Oracle) (d : ℕ), (generate_market_scenario o' d "mixed").length = d :=
  ⟨generate_length o t s e b v, generate_map_date o t s e b v, bdateRange_sorted s e,
    fun o' d => generate_market_scenario_length o' d "mixed"⟩

/-- C4: the scenario policy is determined by the horizon alone — above 500
business days it is always `"mixed"`; in (250, 500] it is the choice's pick
from `["bull", "bear", "mixed"]`; at 250 or fewer days it is the pick from
`["bull", "bear", "sideways"]` and in particular never `"mixed"`. -/
theorem C4_scenario_policy (days : ℕ) (j : Fin 3) :
    (500 < days → selectScenario days j = "mixed") ∧
      (250 < days → days ≤ 500 →
        selectScenario days j = ["bull", "bear", "mixed"].get j) ∧
      (days ≤ 250 →
        selectScenario days j = ["bull", "bear", "sideways"].get j ∧
          selectScenario days j ≠ "mixed") := by
  refine ⟨fun h => ?_, fun h1 h2 => ?_, fun h => ?_⟩
  · unfold selectScenario
    rw [if_pos h]
  · unfold selectScenario
    rw [if_neg (by omega), if_pos h1]
  · unfold selectScenario
    rw [if_neg (by omega), if_neg (by omega)]
    refine ⟨rfl, ?_⟩
    fin_cases j <;> decide

/-- Witness for C4 at the boundary horizons 501, 400 and 100. -/
theorem C4_scenario_policy_witness :
    selectScenario 501 0 = "mixed" ∧
      selectScenario 400 1 = ["bull", "bear", "mixed"].get (1 : Fin 3) ∧
      (selectScenario 100 2 = ["bull", "bear", "sideways"].get (2 : Fin 3) ∧
        selectScenario 100 2 ≠ "mixed") :=
  ⟨(C4_scenario_policy 501 0).1 (by norm_num),
    (C4_scenario_policy 400 1).2.1 (by norm_num) (by norm_num),
    (C4_scenario_policy 100 2).2.2 (by norm_num)⟩

/-- C6: every emitted candle's volume is at least 100000: the base volume
is at least 100000, the multiplier `1 + 10*|return|` is at least 1, and
truncation of a value that is at least 100000 stays at least 100000. -/
theorem C6_volume_lower_bound (o : Oracle) (t : String) (s e : ℕ) (b v : ℚ) :
    ∀ c ∈ generate_realistic_price_series o t s e b v, (100000 : ℤ) ≤ c.volume := by
  intro c hc
  unfold generate_realistic_price_series at hc
  obtain ⟨i, d, cl, hmem, rfl⟩ := buildRows_mem o t _ _ hc
  have hmult : (1 : ℚ) ≤ 1 + |(dailyReturns o (daysOf s e) v).getD i 0| * 10 := by
    have := abs_nonneg ((dailyReturns o (daysOf s e) v).getD i 0)
    linarith
  have hbv : (100000 : ℚ) ≤ (o.baseVol i : ℚ) := by exact_mod_cast (o.baseVol_mem i).1
  exact pyInt_le_of_le (by norm_num)
    (le_trans hbv (le_mul_of_one_le_right (le_trans (by norm_num) hbv) hmult))

/-- C9: inserting an empty data list is a logged warning and a normal
return — no exception and no store mutation, whatever the state of the
database connection or of the insert statement. -/
theorem C9_insert_empty (connectOk insertOk : Bool) (store : List Candle) :
    insert_price_data connectOk insertOk store [] = .ok (store, .warning) := rfl

/-- C10: any scenario tag other than `"bull"`, `"bear"` and `"sideways"`
falls through to the mixed branch of `generate_market_scenario`, producing
the same series as the tag `"mixed"`, of length `days`. -/
theorem C10_unknown_scenario_tag (o : Oracle) (days : ℕ) (tag : String)
    (h1 : tag ≠ "bull") (h2 : tag ≠ "bear") (h3 : tag ≠ "sideways") :
    generate_market_scenario o days tag = generate_market_scenario o days "mixed" ∧
      (generate_market_scenario o days tag).length = days := by
  constructor
  · unfold generate_market_scenario
    rw [if_neg h1, if_neg h2, if_neg h3,
      if_neg (by decide : ¬ ("mixed" : String) = "bull"),
      if_neg (by decide : ¬ ("mixed" : String) = "bear"),
      if_neg (by decide : ¬ ("mixed" : String) = "sideways")]
  · exact generate_market_scenario_length o days tag

/-- Witness for C10 at the unrecognized tag `"momentum"`. -/
theorem C10_unknown_scenario_tag_witness :
    generate_market_scenario oracle0 5 "momentum" = generate_market_scenario oracle0 5 "mixed" ∧
      (generate_market_scenario oracle0 5 "momentum").length = 5 :=
  C10_unknown_scenario_tag oracle0 5 "momentum" (by decide) (by decide) (by decide)

/-- C5 counterexample: the range 2024-01-01 to 2024-01-12 contains 10
business days, so the run emits 10 candles, not 8; and with a large (but
possible) day-0 noise draw the first emitted open is 5000.2, far outside
±1% of the base price 1000. -/
theorem C5_counterexample :
    (generate_realistic_price_series oracle0 "TEST" jan1 jan12 1000 (1/5)).length ≠ 8 ∧
      ¬ (((generate_realistic_price_series oracleBig "TEST" jan1 jan12
            1000 (1/5)).getD 0 cdflt).open_price ≤ 1010) := by
  constructor
  · rw [generate_length]
    decide
  · have hd : 0 < daysOf jan1 jan12 := by decide
    rw [generate_getD_zero oracleBig "TEST" jan1 jan12 1000 (1/5) hd]
    have hsc : selectScenario (daysOf jan1 jan12) oracleBig.scenIdx = "bull" := by decide
    have hr : (dailyReturns oracleBig (daysOf jan1 jan12) (1/5)).getD 0 0 = 20001/5000 := by
      rw [dailyReturns_head oracleBig _ _ hd hsc (by norm_num [oracleBig, oracle0])]
      have hbd : (bullDrift (daysOf jan1 jan12)).getD 0 0 = 0 := by
        rw [show daysOf jan1 jan12 = 10 from by decide]
        norm_num [bullDrift, linspace, List.range_succ]
      rw [hbd]
      norm_num [oracleBig, oracle0]
    have hc0 : (pricesFor oracleBig jan1 jan12 1000 (1/5)).getD 0 0 = 25001/5 := by
      rw [pricesFor_head oracleBig jan1 jan12 1000 (1/5) hd, hr]
      rw [max_eq_left (by norm_num)]
      norm_num
    simp only [mkRow, hc0]
    unfold rawOpen
    rw [if_pos rfl]
    have hu : oracleBig.openU = 1 := rfl
    rw [hu, mul_one]
    rw [round2_eval (f := 500020) (floor_eval (by norm_num) (by norm_num)) (by norm_num)]
    norm_num

/-- C5 amended: the request (ticker `"TEST"`, 2024-01-01 to 2024-01-12,
base price 1000, volatility 0.2) returns exactly 10 candles (the range's
business-day count), each satisfying the OHLC invariant, and the first
day's open price before 2-decimal rounding is within ±1% of the first
day's close price (not of the base price 1000). -/
theorem C5_end_to_end (o : Oracle) :
    (generate_realistic_price_series o "TEST" jan1 jan12 1000 (1/5)).length = 10 ∧
      (∀ c ∈ generate_realistic_price_series o "TEST" jan1 jan12 1000 (1/5), ohlcInv c) ∧
      (99/100) * (pricesFor o jan1 jan12 1000 (1/5)).getD 0 0 ≤
        rawOpen o (pricesFor o jan1 jan12 1000 (1/5))
          ((pricesFor o jan1 jan12 1000 (1/5)).getD 0 0) 0 ∧
      rawOpen o (pricesFor o jan1 jan12 1000 (1/5))
          ((pricesFor o jan1 jan12 1000 (1/5)).getD 0 0) 0 ≤
        (101/100) * (pricesFor o jan1 jan12 1000 (1/5)).getD 0 0 := by
  have hc0 : 0 ≤ (pricesFor o jan1 jan12 1000 (1/5)).getD 0 0 :=
    getD_nonneg_of_mem_nonneg (pricesOf_mem_nonneg (by norm_num) _) 0
  have hopen : rawOpen o (pricesFor o jan1 jan12 1000 (1/5))
      ((pricesFor o jan1 jan12 1000 (1/5)).getD 0 0) 0 =
      (pricesFor o jan1 jan12 1000 (1/5)).getD 0 0 * o.openU := by
    unfold rawOpen
    rw [if_pos rfl]
  refine ⟨?_, ohlcInv_generate o "TEST" jan1 jan12 (1/5) (by norm_num), ?_, ?_⟩
  · rw [generate_length]
    decide
  · rw [hopen, mul_comm (99/100 : ℚ)]
    exact mul_le_mul_of_nonneg_left o.openU_mem.1 hc0
  · rw [hopen]
    calc (pricesFor o jan1 jan12 1000 (1/5)).getD 0 0 * o.openU ≤
        (pricesFor o jan1 jan12 1000 (1/5)).getD 0 0 * (101/100) :=
          mul_le_mul_of_nonneg_left o.openU_mem.2 hc0
      _ = (101/100) * (pricesFor o jan1 jan12 1000 (1/5)).getD 0 0 := mul_comm _ _

/-- Witness for C2's amended statement at a concrete one-day request. -/
theorem C2_close_floor_witness :
    round2 ((1000 : ℚ) * (1/10)) ≤
      ((generate_realistic_price_series oracle0 "T" jan1 jan1 1000 (1/5)).getD 0 cdflt).close_price :=
  (C2_close_floor oracle0 "T" jan1 jan1 1000 (1/5)).2 _
    (getD_mem _ 0 cdflt (by rw [generate_length]; decide))

/-- Witness for C5's amended statement at the degenerate oracle. -/
theorem C5_end_to_end_witness :
    ohlcInv ((generate_realistic_price_series oracle0 "TEST" jan1 jan12 1000 (1/5)).getD 0 cdflt) :=
  (C5_end_to_end oracle0).2.1 _
    (getD_mem _ 0 cdflt (by rw [generate_length]; decide))

/-- Witness for C6 at a concrete one-day request. -/
theorem C6_volume_lower_bound_witness :
    (100000 : ℤ) ≤
      ((generate_realistic_price_series oracle0 "T" jan1 jan1 1000 (1/5)).getD 0 cdflt).volume :=
  C6_volume_lower_bound oracle0 "T" jan1 jan1 1000 (1/5) _
    (getD_mem _ 0 cdflt (by rw [generate_length]; decide))
